import Mathlib

/-!
Verification of the VTEX MasterData export/browse service.

The definitions below are a shallow embedding of the TypeScript source:

* the rate limiter and pagination sanitizer from `src/lib/security.ts`
  (`checkRateLimit`, `sanitizePagination`), with the process-wide
  `rateLimitStore` `Map` modelled as an association list in insertion
  order (`Store`), and `Date.now()` passed explicitly as `now`;
* the bulk-export route (`exportV1Scroll`, `exportV1SearchFallback`,
  `exportV2Search`, and the `POST` orchestration `exportV1`), where the
  remote MasterData API is modelled as a function from the 0-based index
  of the issued call to the response of that call, and the `while`
  loops are written as fuel recursion with fuel `MAX_BATCHES - batches`;
* the single-page documents route (`fetchRecordsBySchema`,
  `fetchSchemas`, `chooseQuery`, `buildPagination`, `singlePageQuery`),
  where the remote search endpoint is modelled as a function from the
  `_schema` parameter of the call to its response, and the list of
  issued search calls is returned alongside the result.

Records are opaque; they are modelled as natural numbers.  Parsed total
counts are modelled as `Option Nat` (absent header or unparsable value
is `none`).  JavaScript truthiness of strings is modelled explicitly:
the empty string is falsy.
-/

set_option autoImplicit false
set_option maxRecDepth 40000

namespace Vtex

/-! ### Rate limiter (`src/lib/security.ts`, `checkRateLimit`) -/

structure RateLimitEntry where
  count : Nat
  resetAt : Int
  deriving DecidableEq, Repr

structure RateLimitResult where
  allowed : Bool
  retryAfterMs : Int
  deriving DecidableEq, Repr

/-- The `rateLimitStore : Map<string, RateLimitEntry>`, as an association
list in insertion order. -/
abbrev Store := List (String × RateLimitEntry)

/-- `Map.get`. -/
def storeGet : Store → String → Option RateLimitEntry
  | [], _ => none
  | (k, e) :: rest, key => if k = key then some e else storeGet rest key

/-- `Map.set`: overwrite in place, else append (JS insertion order). -/
def storeSet : Store → String → RateLimitEntry → Store
  | [], key, e => [(key, e)]
  | (k, e0) :: rest, key, e =>
      if k = key then (k, e) :: rest else (k, e0) :: storeSet rest key e

/-- The cleanup sweep: delete every entry with `resetAt <= now`. -/
def storeSweep (s : Store) (now : Int) : Store :=
  s.filter (fun kv => decide (now < kv.2.resetAt))

/-- `checkRateLimit(key, maxRequests, windowMs)`, with the ambient time
and store passed explicitly; returns the result and the updated store. -/
def checkRateLimit (now : Int) (key : String) (maxRequests : Nat) (windowMs : Int)
    (s : Store) : RateLimitResult × Store :=
  match storeGet s key with
  | none => (⟨true, windowMs⟩, storeSet s key ⟨1, now + windowMs⟩)
  | some existing =>
    if existing.resetAt ≤ now then
      (⟨true, windowMs⟩, storeSet s key ⟨1, now + windowMs⟩)
    else if maxRequests ≤ existing.count then
      (⟨false, max 0 (existing.resetAt - now)⟩, s)
    else
      let s1 := storeSet s key ⟨existing.count + 1, existing.resetAt⟩
      let s2 := if 1000 < s1.length then storeSweep s1 now else s1
      (⟨true, max 0 (existing.resetAt - now)⟩, s2)

/-- A sequence of `checkRateLimit` calls for one key at the given times;
returns the list of results and the final store. -/
def runChecks (key : String) (maxRequests : Nat) (windowMs : Int) :
    List Int → Store → List RateLimitResult × Store
  | [], s => ([], s)
  | t :: ts, s =>
    let p := checkRateLimit t key maxRequests windowMs s
    let q := runChecks key maxRequests windowMs ts p.2
    (p.1 :: q.1, q.2)

/-! ### Pagination sanitizer (`src/lib/security.ts`, `sanitizePagination`) -/

/-- `sanitizePagination(page?, pageSize?)`.  The JS inputs are numbers or
absent; numeric inputs are modelled as rationals so that fractional
values are representable, and `Number.isInteger` is `den = 1`. -/
def sanitizePagination (page pageSize : Option ℚ) : Except String (Nat × Nat) :=
  let parsedPage := page.getD 1
  let parsedPageSize := pageSize.getD 50
  if parsedPage.den ≠ 1 ∨ parsedPage < 1 ∨ 10000 < parsedPage then
    .error "Página inválida."
  else if parsedPageSize.den ≠ 1 ∨ parsedPageSize < 1 ∨ 200 < parsedPageSize then
    .error "Tamanho de página inválido."
  else
    .ok (parsedPage.num.toNat, parsedPageSize.num.toNat)

/-! ### Bulk export route (second document of `src/lib/security.ts`) -/

def MAX_BATCHES : Nat := 200
def PAGE_SIZE_V1 : Nat := 100
def PAGE_SIZE_V2 : Nat := 100

inductive Strategy where
  | v1Scroll
  | v1SearchFallback
  | v2Search
  deriving DecidableEq, Repr

/-- The success shape of `ExportResponse`. -/
structure ExportOk where
  records : List Nat
  batches : Nat
  truncated : Bool
  strategy : Strategy
  deriving DecidableEq, Repr

/-- The `{ error, status }` shape. -/
structure ExportErr where
  error : String
  status : Nat
  deriving DecidableEq, Repr

abbrev ExportResult := Except ExportErr ExportOk

/-- One response of the windowed `search` endpoint: HTTP success flag,
status, decoded body (`chunk`), and the total parsed from the headers by
`parseTotalFromHeaders` (`none` when absent/unparsable). -/
structure SearchResp where
  ok : Bool
  status : Nat
  chunk : List Nat
  total : Option Nat
  deriving DecidableEq, Repr

/-- One response of the `scroll` endpoint: the `x-vtex-md-token` header
is `none` when absent (`some ""` is possible and falsy in JS).  `body`
models the text body used in the error message. -/
structure ScrollResp where
  ok : Bool
  status : Nat
  body : String
  chunk : List Nat
  nextToken : Option String
  deriving DecidableEq, Repr

/-- One response of the V2 paged `search` endpoint (no total is read). -/
structure PagedResp where
  ok : Bool
  status : Nat
  chunk : List Nat
  deriving DecidableEq, Repr

/-- Response of the `schemas` endpoint: each item may carry a `name`. -/
structure SchemasResp where
  ok : Bool
  schemas : List (Option String)
  deriving DecidableEq, Repr

/-- JS truthiness test of an optional string (`!nextToken`). -/
def tokFalsy : Option String → Bool
  | none => true
  | some s => s == ""

/-- Records accumulated by the first `n` calls: `allRecords` after the
chunks of calls `0 .. n-1` have been pushed. -/
def accRecords (chunkOf : Nat → List Nat) : Nat → List Nat
  | 0 => []
  | n + 1 => accRecords chunkOf n ++ chunkOf n

/-- The `visitedTokens` set after the first `n` scroll calls all
continued (each call's token added in order). -/
def visitedToks (remote : Nat → ScrollResp) : Nat → List String
  | 0 => []
  | n + 1 => (visitedToks remote n).concat (((remote n).nextToken).getD "")

/-- The loop of `exportV1SearchFallback`.  `b` is the number of calls
already issued (`batches` before the increment), `fuel = MAX_BATCHES - b`,
and `remote b` is the response of the call with `page = b + 1`
(`page` and `batches` advance in lockstep in the source). -/
def fallbackLoop (remote : Nat → SearchResp) : Nat → Nat → List Nat → ExportResult
  | 0, b, acc => .ok ⟨acc, b, true, .v1SearchFallback⟩
  | fuel + 1, b, acc =>
    let r := remote b
    if r.ok = true then
      let acc2 := acc ++ r.chunk
      if r.chunk.length < PAGE_SIZE_V1 then
        .ok ⟨acc2, b + 1, false, .v1SearchFallback⟩
      else
        match r.total with
        | some t =>
          if t ≤ acc2.length then
            .ok ⟨acc2, b + 1, false, .v1SearchFallback⟩
          else
            fallbackLoop remote fuel (b + 1) acc2
        | none => fallbackLoop remote fuel (b + 1) acc2
    else
      .error ⟨"Falha ao exportar registros do V1 no fallback de paginação.", r.status⟩

def exportV1SearchFallback (remote : Nat → SearchResp) : ExportResult :=
  fallbackLoop remote MAX_BATCHES 0 []

/-- The loop of `exportV1Scroll`.  The scroll token sent on call `b + 1`
is the token returned by call `b`; since `remote` is indexed by the call
number the token does not need to be threaded separately. -/
def scrollLoop (remote : Nat → ScrollResp) : Nat → Nat → List String → List Nat → ExportResult
  | 0, b, _, acc => .ok ⟨acc, b, true, .v1Scroll⟩
  | fuel + 1, b, visited, acc =>
    let r := remote b
    if r.ok = true then
      let acc2 := acc ++ r.chunk
      let nt := r.nextToken
      if r.chunk = [] ∨ tokFalsy nt = true ∨ visited.contains (nt.getD "") = true then
        .ok ⟨acc2, b + 1, visited.contains (nt.getD ""), .v1Scroll⟩
      else
        scrollLoop remote fuel (b + 1) (visited.concat (nt.getD "")) acc2
    else
      .error ⟨"Falha ao exportar registros do V1 via scroll. " ++ r.body.take 200, r.status⟩

def exportV1Scroll (remote : Nat → ScrollResp) : ExportResult :=
  scrollLoop remote MAX_BATCHES 0 [] []

/-- `schemas.find((item) => item.name)?.name ?? null`: the first truthy
name in the list. -/
def firstTruthyName : List (Option String) → Option String
  | [] => none
  | none :: rest => firstTruthyName rest
  | some s :: rest => if s = "" then firstTruthyName rest else some s

/-- `resolveV2Schema`: an explicit schema is returned unchanged with no
remote call; otherwise the schemas endpoint response decides. -/
def resolveV2Schema (schema : Option String) (resp : SchemasResp) : Option String :=
  match schema with
  | some s => some s
  | none => if resp.ok = true then firstTruthyName resp.schemas else none

/-- The loop of `exportV2Search`; call `b` carries `_page = b + 1`. -/
def v2Loop (remote : Nat → PagedResp) : Nat → Nat → List Nat → ExportResult
  | 0, b, acc => .ok ⟨acc, b, true, .v2Search⟩
  | fuel + 1, b, acc =>
    let r := remote b
    if r.ok = true then
      let acc2 := acc ++ r.chunk
      if r.chunk.length < PAGE_SIZE_V2 then
        .ok ⟨acc2, b + 1, false, .v2Search⟩
      else
        v2Loop remote fuel (b + 1) acc2
    else
      .error ⟨"Falha ao exportar registros do V2.", r.status⟩

def exportV2Search (schema : Option String) (sresp : SchemasResp)
    (remote : Nat → PagedResp) : ExportResult :=
  match resolveV2Schema schema sresp with
  | none => .error ⟨"Nenhum schema disponível para esta entidade no V2.", 400⟩
  | some _ => v2Loop remote MAX_BATCHES 0 []

/-- The V1 arm of the export route's `POST`: run the scroll strategy
and, exactly when it returned an error, run the windowed-search
fallback and use its outcome instead. -/
def exportV1 (sremote : Nat → ScrollResp) (fremote : Nat → SearchResp) : ExportResult :=
  match exportV1Scroll sremote with
  | .ok r => .ok r
  | .error _ => exportV1SearchFallback fremote

/-- The stop condition of the fallback loop at call `i` (0-based), for a
successful response: short batch, or known total already reached by the
records accumulated through call `i`. -/
def StopFallback (remote : Nat → SearchResp) (i : Nat) : Prop :=
  (remote i).chunk.length < PAGE_SIZE_V1 ∨
    totalReached (remote i).total (accRecords (fun j => (remote j).chunk) (i + 1)).length
where
  /-- `total !== null && allRecords.length >= total`. -/
  totalReached : Option Nat → Nat → Prop
    | some t, len => t ≤ len
    | none, _ => False

instance : (total : Option Nat) → (len : Nat) → Decidable (StopFallback.totalReached total len)
  | some t, len => Nat.decLe t len
  | none, _ => isFalse id

instance (remote : Nat → SearchResp) (i : Nat) : Decidable (StopFallback remote i) := by
  unfold StopFallback
  exact inferInstance

/-- The stop condition of the scroll loop at call `i` (0-based), given
that every earlier call continued: empty batch, falsy next token, or a
next token already in the visited set. -/
def StopScroll (remote : Nat → ScrollResp) (i : Nat) : Prop :=
  (remote i).chunk = [] ∨ tokFalsy (remote i).nextToken = true ∨
    (visitedToks remote i).contains (((remote i).nextToken).getD "") = true

instance (remote : Nat → ScrollResp) (i : Nat) : Decidable (StopScroll remote i) := by
  unfold StopScroll
  exact inferInstance

/-- The stop condition of the V2 paged loop at call `i`. -/
def StopV2 (remote : Nat → PagedResp) (i : Nat) : Prop :=
  (remote i).chunk.length < PAGE_SIZE_V2

instance (remote : Nat → PagedResp) (i : Nat) : Decidable (StopV2 remote i) := by
  unfold StopV2
  exact inferInstance

/-! ### Single-page documents route (`src/app/api/vtex/documents/route.ts`) -/

inductive Version where
  | v1
  | v2
  deriving DecidableEq, Repr

/-- One raw response of the windowed search endpoint used by the
documents route (records plus the total parsed from the headers).  The
page and page size of the request are fixed for the whole route call, so
the remote is modelled as a function of the `_schema` parameter only. -/
structure PageResp where
  ok : Bool
  status : Nat
  records : List Nat
  total : Option Nat
  deriving DecidableEq, Repr

/-- The value returned by `fetchRecordsBySchema`. -/
structure FetchResult where
  ok : Bool
  status : Nat
  records : List Nat
  total : Option Nat
  schemaUsed : Option String
  deriving DecidableEq, Repr

def fetchRecordsBySchema (remote : Option String → PageResp)
    (schemaName : Option String) : FetchResult :=
  let r := remote schemaName
  if r.ok = true then ⟨true, r.status, r.records, r.total, schemaName⟩
  else ⟨false, r.status, [], none, schemaName⟩

/-- `schemas.map((item) => item.name).filter(Boolean)`. -/
def truthyNames : List (Option String) → List String
  | [] => []
  | none :: rest => truthyNames rest
  | some s :: rest => if s = "" then truthyNames rest else s :: truthyNames rest

/-- `fetchSchemas`: the truthy schema names, or `[]` on a failed call. -/
def fetchSchemas (resp : SchemasResp) : List String :=
  if resp.ok = true then truthyNames resp.schemas else []

structure PageErr where
  error : String
  status : Nat
  deriving DecidableEq, Repr

/-- `{ page, pageSize, total, totalPages, hasPrevious, hasNext }`. -/
structure Pagination where
  page : Nat
  pageSize : Nat
  total : Option Nat
  totalPages : Option Nat
  hasPrevious : Bool
  hasNext : Bool
  deriving DecidableEq, Repr

/-- `Math.ceil(total / pageSize)` on naturals (`pageSize` is 1–200 after
sanitization). -/
def ceilDiv (a b : Nat) : Nat := (a + b - 1) / b

/-- Lines 261–275 of the documents route: the pagination metadata built
from the query result. -/
def buildPagination (page pageSize : Nat) (total : Option Nat) (recordsLen : Nat) :
    Pagination :=
  let computedTotalPages := total.map (fun t => max 1 (ceilDiv t pageSize))
  { page := page
    pageSize := pageSize
    total := total
    totalPages := computedTotalPages
    hasPrevious := decide (1 < page)
    hasNext :=
      match computedTotalPages with
      | some tp => decide (page < tp)
      | none => decide (recordsLen = pageSize) }

structure PageOk where
  records : List Nat
  pagination : Pagination
  schemaUsed : Option String
  deriving DecidableEq, Repr

/-- The V1 empty-batch retry loop (lines 234–252): probe each discovered
schema, keeping the first successful non-empty result, else keep `q0`.
Also returns the `_schema` parameters of the search calls it issued. -/
def v1SchemaRetry (remote : Option String → PageResp) (q0 : FetchResult) :
    List String → FetchResult × List (Option String)
  | [] => (q0, [])
  | sn :: rest =>
    let fr := fetchRecordsBySchema remote (some sn)
    if fr.ok = true ∧ fr.records ≠ [] then (fr, [some sn])
    else
      let p := v1SchemaRetry remote q0 rest
      (p.1, some sn :: p.2)

/-- Lines 200–252 of the documents route: choose the query result.  The
first component is the chosen result (or the V2 no-schema error); the
second is the list of `_schema` parameters of every windowed-search call
issued, in order. -/
def chooseQuery (version : Version) (schema : Option String) (sresp : SchemasResp)
    (remote : Option String → PageResp) :
    Except PageErr FetchResult × List (Option String) :=
  let q0 := fetchRecordsBySchema remote none
  match version with
  | .v2 =>
    let schemaToUse :=
      match schema with
      | some s => some s
      | none => (fetchSchemas sresp).head?
    match schemaToUse with
    | none => (.error ⟨"Nenhum schema disponível para esta entidade no V2.", 400⟩, [none])
    | some s => (.ok (fetchRecordsBySchema remote (some s)), [none, some s])
  | .v1 =>
    if q0.ok = true ∧ q0.records = [] then
      let p := v1SchemaRetry remote q0 (fetchSchemas sresp)
      (.ok p.1, none :: p.2)
    else
      (.ok q0, [none])

/-- The tail of the documents route `POST` (after validation): choose
the query result and build the response. -/
def singlePageQuery (version : Version) (schema : Option String) (sresp : SchemasResp)
    (remote : Option String → PageResp) (page pageSize : Nat) : Except PageErr PageOk :=
  match (chooseQuery version schema sresp remote).1 with
  | .error e => .error e
  | .ok q =>
    if q.ok = true then
      .ok ⟨q.records, buildPagination page pageSize q.total q.records.length, q.schemaUsed⟩
    else
      .error ⟨"Falha ao carregar registros da entidade.", q.status⟩

/-! ### Concrete inputs used by witnesses and counterexamples -/

/-- A remote data set with reported total 250 served in pages of 100:
calls 0 and 1 return 100 records, call 2 returns 50. -/
def remote250 : Nat → SearchResp := fun n =>
  { ok := true
    status := 200
    chunk := if n < 2 then List.replicate 100 0 else List.replicate 50 0
    total := some 250 }

/-- A scroll remote whose token repeats from the first call on. -/
def remoteRepeat : Nat → ScrollResp := fun n =>
  { ok := true, status := 200, body := "", chunk := [n], nextToken := some "tok" }

/-- A scroll remote that never stops: full chunks, fresh tokens. -/
def remoteEndless : Nat → ScrollResp := fun n =>
  { ok := true, status := 200, body := "", chunk := [n], nextToken := some (toString n) }

/-- A windowed-search remote that never stops: full pages, no total. -/
def remoteFull : Nat → SearchResp := fun _ =>
  { ok := true, status := 200, chunk := List.replicate 100 0, total := none }

/-- A V2 paged remote that never stops. -/
def remoteFullPaged : Nat → PagedResp := fun _ =>
  { ok := true, status := 200, chunk := List.replicate 100 0 }

/-- A scroll remote whose first call fails with HTTP 500. -/
def remoteScrollFail : Nat → ScrollResp := fun _ =>
  { ok := false, status := 500, body := "boom", chunk := [], nextToken := none }

/-- A scroll remote that terminates immediately with an empty batch. -/
def remoteScrollEmpty : Nat → ScrollResp := fun _ =>
  { ok := true, status := 200, body := "", chunk := [], nextToken := none }

/-- A windowed-search remote that returns one short batch. -/
def remoteOneShort : Nat → SearchResp := fun _ =>
  { ok := true, status := 200, chunk := [1, 2, 3], total := some 3 }

/-- A rate-limit table with 1001 expired entries. -/
def bigStore : Store :=
  (List.range 1001).map (fun i => ("e" ++ toString i, ⟨1, 0⟩))

/-- `bigStore` with one live entry in front (1002 keys). -/
def bigStore2 : Store := ("live", ⟨1, 9⟩) :: bigStore

/-- A single-page remote reporting a known total of 0 alongside a
non-empty record list. -/
def remoteTotal0 : Option String → PageResp := fun _ =>
  { ok := true, status := 200, records := [7], total := some 0 }

/-- A single-page remote serving a full page of 25 with total 95. -/
def remote95 : Option String → PageResp := fun _ =>
  { ok := true, status := 200, records := List.replicate 25 0, total := some 95 }

/-- A single-page remote with non-empty records and no total. -/
def remotePlain : Option String → PageResp := fun _ =>
  { ok := true, status := 200, records := [1], total := none }

/-- The fractional page number 3/2, given in lowest terms. -/
def ratHalf : ℚ := ⟨3, 2, by decide, by decide⟩

/-! ## Helper lemmas: one-step equations for the three batch loops -/

theorem fallbackLoop_succ (remote : Nat → SearchResp) (fuel b : Nat) (acc : List Nat) :
    fallbackLoop remote (fuel + 1) b acc =
      if (remote b).ok = true then
        if (remote b).chunk.length < PAGE_SIZE_V1 then
          .ok ⟨acc ++ (remote b).chunk, b + 1, false, .v1SearchFallback⟩
        else
          match (remote b).total with
          | some t =>
            if t ≤ (acc ++ (remote b).chunk).length then
              .ok ⟨acc ++ (remote b).chunk, b + 1, false, .v1SearchFallback⟩
            else fallbackLoop remote fuel (b + 1) (acc ++ (remote b).chunk)
          | none => fallbackLoop remote fuel (b + 1) (acc ++ (remote b).chunk)
      else
        .error ⟨"Falha ao exportar registros do V1 no fallback de paginação.",
          (remote b).status⟩ := rfl

theorem scrollLoop_succ (remote : Nat → ScrollResp) (fuel b : Nat) (visited : List String)
    (acc : List Nat) :
    scrollLoop remote (fuel + 1) b visited acc =
      if (remote b).ok = true then
        if (remote b).chunk = [] ∨ tokFalsy (remote b).nextToken = true ∨
            visited.contains (((remote b).nextToken).getD "") = true then
          .ok ⟨acc ++ (remote b).chunk, b + 1,
            visited.contains (((remote b).nextToken).getD ""), .v1Scroll⟩
        else
          scrollLoop remote fuel (b + 1) (visited.concat (((remote b).nextToken).getD ""))
            (acc ++ (remote b).chunk)
      else
        .error ⟨"Falha ao exportar registros do V1 via scroll. " ++ (remote b).body.take 200,
          (remote b).status⟩ := rfl

theorem v2Loop_succ (remote : Nat → PagedResp) (fuel b : Nat) (acc : List Nat) :
    v2Loop remote (fuel + 1) b acc =
      if (remote b).ok = true then
        if (remote b).chunk.length < PAGE_SIZE_V2 then
          .ok ⟨acc ++ (remote b).chunk, b + 1, false, .v2Search⟩
        else v2Loop remote fuel (b + 1) (acc ++ (remote b).chunk)
      else
        .error ⟨"Falha ao exportar registros do V2.", (remote b).status⟩ := rfl

/-! ## Helper lemmas: the windowed-search fallback loop -/

theorem fallbackLoop_stop (remote : Nat → SearchResp) (N : Nat)
    (hok : ∀ m, m ≤ N → (remote m).ok = true)
    (hmin : ∀ m, m < N → ¬ StopFallback remote m)
    (hstop : StopFallback remote N) :
    ∀ fuel b, b ≤ N → N < b + fuel →
      fallbackLoop remote fuel b (accRecords (fun j => (remote j).chunk) b) =
        .ok ⟨accRecords (fun j => (remote j).chunk) (N + 1), N + 1, false,
          .v1SearchFallback⟩ := by
  intro fuel
  induction fuel with
  | zero =>
    intro b hb hlt
    exact absurd hlt (by omega)
  | succ fuel ih =>
    intro b hb hlt
    rw [fallbackLoop_succ, hok b hb, if_pos rfl]
    by_cases hbN : b = N
    · subst hbN
      by_cases hshort : (remote b).chunk.length < PAGE_SIZE_V1
      · rw [if_pos hshort]
        rfl
      · rw [if_neg hshort]
        rcases hstop with h | htot
        · exact absurd h hshort
        · cases htotal : (remote b).total with
          | none =>
            rw [htotal] at htot
            exact htot.elim
          | some t =>
            rw [htotal] at htot
            simp only [StopFallback.totalReached] at htot
            simp only
            rw [if_pos (show t ≤ (accRecords (fun j => (remote j).chunk) b ++
              (remote b).chunk).length from htot)]
            rfl
    · have hblt : b < N := by omega
      have hns := hmin b hblt
      unfold StopFallback at hns
      push_neg at hns
      rw [if_neg (not_lt.mpr hns.1)]
      cases htotal : (remote b).total with
      | none =>
        simp only
        exact ih (b + 1) (by omega) (by omega)
      | some t =>
        have hnt := hns.2
        rw [htotal] at hnt
        simp only [StopFallback.totalReached] at hnt
        simp only
        rw [if_neg (show ¬ t ≤ (accRecords (fun j => (remote j).chunk) b ++
          (remote b).chunk).length from hnt)]
        exact ih (b + 1) (by omega) (by omega)

theorem fallbackLoop_cap (remote : Nat → SearchResp)
    (hok : ∀ m, m < MAX_BATCHES → (remote m).ok = true)
    (hns : ∀ m, m < MAX_BATCHES → ¬ StopFallback remote m) :
    ∀ fuel b, b + fuel = MAX_BATCHES →
      fallbackLoop remote fuel b (accRecords (fun j => (remote j).chunk) b) =
        .ok ⟨accRecords (fun j => (remote j).chunk) MAX_BATCHES, MAX_BATCHES, true,
          .v1SearchFallback⟩ := by
  intro fuel
  induction fuel with
  | zero =>
    intro b hb
    have hbe : b = MAX_BATCHES := by omega
    subst hbe
    rfl
  | succ fuel ih =>
    intro b hb
    have hblt : b < MAX_BATCHES := by omega
    rw [fallbackLoop_succ, hok b hblt, if_pos rfl]
    have hnsb := hns b hblt
    unfold StopFallback at hnsb
    push_neg at hnsb
    rw [if_neg (not_lt.mpr hnsb.1)]
    cases htotal : (remote b).total with
    | none =>
      simp only
      exact ih (b + 1) (by omega)
    | some t =>
      have hnt := hnsb.2
      rw [htotal] at hnt
      simp only [StopFallback.totalReached] at hnt
      simp only
      rw [if_neg (show ¬ t ≤ (accRecords (fun j => (remote j).chunk) b ++
        (remote b).chunk).length from hnt)]
      exact ih (b + 1) (by omega)

theorem fallbackLoop_ok_inv (remote : Nat → SearchResp) :
    ∀ fuel b acc r, fallbackLoop remote fuel b acc = .ok r →
      r.batches ≤ b + fuel ∧ r.strategy = .v1SearchFallback := by
  intro fuel
  induction fuel with
  | zero =>
    intro b acc r h
    simp only [fallbackLoop, Except.ok.injEq] at h
    subst h
    exact ⟨Nat.le_refl _, rfl⟩
  | succ fuel ih =>
    intro b acc r h
    rw [fallbackLoop_succ] at h
    split at h
    · split at h
      · injection h with h
        subst h
        have hle : b + 1 ≤ b + (fuel + 1) := by omega
        exact ⟨hle, rfl⟩
      · split at h
        · split at h
          · injection h with h
            subst h
            have hle : b + 1 ≤ b + (fuel + 1) := by omega
            exact ⟨hle, rfl⟩
          · obtain ⟨h1, h2⟩ := ih (b + 1) _ r h
            exact ⟨by omega, h2⟩
        · obtain ⟨h1, h2⟩ := ih (b + 1) _ r h
          exact ⟨by omega, h2⟩
    · exact absurd h (by simp)

theorem fallbackLoop_error (remote : Nat → SearchResp) :
    ∀ fuel b acc e, fallbackLoop remote fuel b acc = .error e →
      ∃ m, (remote m).ok = false ∧ e.status = (remote m).status := by
  intro fuel
  induction fuel with
  | zero =>
    intro b acc e h
    exact absurd h (by simp [fallbackLoop])
  | succ fuel ih =>
    intro b acc e h
    rw [fallbackLoop_succ] at h
    split at h
    · split at h
      · exact absurd h (by simp)
      · split at h
        · split at h
          · exact absurd h (by simp)
          · exact ih (b + 1) _ e h
        · exact ih (b + 1) _ e h
    · rename_i hnok
      injection h with h
      subst h
      exact ⟨b, by simpa using hnok, rfl⟩

/-! ## Helper lemmas: the scroll loop -/

theorem scrollLoop_stop (remote : Nat → ScrollResp) (N : Nat)
    (hok : ∀ m, m ≤ N → (remote m).ok = true)
    (hmin : ∀ m, m < N → ¬ StopScroll remote m)
    (hstop : StopScroll remote N) :
    ∀ fuel b, b ≤ N → N < b + fuel →
      scrollLoop remote fuel b (visitedToks remote b)
          (accRecords (fun j => (remote j).chunk) b) =
        .ok ⟨accRecords (fun j => (remote j).chunk) (N + 1), N + 1,
          (visitedToks remote N).contains (((remote N).nextToken).getD ""), .v1Scroll⟩ := by
  intro fuel
  induction fuel with
  | zero =>
    intro b hb hlt
    exact absurd hlt (by omega)
  | succ fuel ih =>
    intro b hb hlt
    rw [scrollLoop_succ, hok b hb, if_pos rfl]
    by_cases hbN : b = N
    · subst hbN
      unfold StopScroll at hstop
      rw [if_pos hstop]
      rfl
    · have hblt : b < N := by omega
      have hm := hmin b hblt
      unfold StopScroll at hm
      rw [if_neg hm]
      exact ih (b + 1) (by omega) (by omega)

theorem scrollLoop_cap (remote : Nat → ScrollResp)
    (hok : ∀ m, m < MAX_BATCHES → (remote m).ok = true)
    (hns : ∀ m, m < MAX_BATCHES → ¬ StopScroll remote m) :
    ∀ fuel b, b + fuel = MAX_BATCHES →
      scrollLoop remote fuel b (visitedToks remote b)
          (accRecords (fun j => (remote j).chunk) b) =
        .ok ⟨accRecords (fun j => (remote j).chunk) MAX_BATCHES, MAX_BATCHES, true,
          .v1Scroll⟩ := by
  intro fuel
  induction fuel with
  | zero =>
    intro b hb
    have hbe : b = MAX_BATCHES := by omega
    subst hbe
    rfl
  | succ fuel ih =>
    intro b hb
    have hblt : b < MAX_BATCHES := by omega
    have hm := hns b hblt
    unfold StopScroll at hm
    rw [scrollLoop_succ, hok b hblt, if_pos rfl, if_neg hm]
    exact ih (b + 1) (by omega)

theorem scrollLoop_ok_inv (remote : Nat → ScrollResp) :
    ∀ fuel b visited acc r, scrollLoop remote fuel b visited acc = .ok r →
      r.batches ≤ b + fuel ∧ r.strategy = .v1Scroll := by
  intro fuel
  induction fuel with
  | zero =>
    intro b visited acc r h
    simp only [scrollLoop, Except.ok.injEq] at h
    subst h
    exact ⟨Nat.le_refl _, rfl⟩
  | succ fuel ih =>
    intro b visited acc r h
    rw [scrollLoop_succ] at h
    split at h
    · split at h
      · injection h with h
        subst h
        have hle : b + 1 ≤ b + (fuel + 1) := by omega
        exact ⟨hle, rfl⟩
      · obtain ⟨h1, h2⟩ := ih (b + 1) _ _ r h
        exact ⟨by omega, h2⟩
    · exact absurd h (by simp)

theorem scrollLoop_error (remote : Nat → ScrollResp) :
    ∀ fuel b visited acc e, scrollLoop remote fuel b visited acc = .error e →
      ∃ m, (remote m).ok = false ∧ e.status = (remote m).status := by
  intro fuel
  induction fuel with
  | zero =>
    intro b visited acc e h
    exact absurd h (by simp [scrollLoop])
  | succ fuel ih =>
    intro b visited acc e h
    rw [scrollLoop_succ] at h
    split at h
    · split at h
      · exact absurd h (by simp)
      · exact ih (b + 1) _ _ e h
    · rename_i hnok
      injection h with h
      subst h
      exact ⟨b, by simpa using hnok, rfl⟩

/-! ## Helper lemmas: the V2 paged loop -/

theorem v2Loop_stop (remote : Nat → PagedResp) (N : Nat)
    (hok : ∀ m, m ≤ N → (remote m).ok = true)
    (hmin : ∀ m, m < N → ¬ StopV2 remote m)
    (hstop : StopV2 remote N) :
    ∀ fuel b, b ≤ N → N < b + fuel →
      v2Loop remote fuel b (accRecords (fun j => (remote j).chunk) b) =
        .ok ⟨accRecords (fun j => (remote j).chunk) (N + 1), N + 1, false, .v2Search⟩ := by
  intro fuel
  induction fuel with
  | zero =>
    intro b hb hlt
    exact absurd hlt (by omega)
  | succ fuel ih =>
    intro b hb hlt
    rw [v2Loop_succ, hok b hb, if_pos rfl]
    by_cases hbN : b = N
    · subst hbN
      unfold StopV2 at hstop
      rw [if_pos hstop]
      rfl
    · have hblt : b < N := by omega
      have hm := hmin b hblt
      unfold StopV2 at hm
      rw [if_neg hm]
      exact ih (b + 1) (by omega) (by omega)

theorem v2Loop_cap (remote : Nat → PagedResp)
    (hok : ∀ m, m < MAX_BATCHES → (remote m).ok = true)
    (hns : ∀ m, m < MAX_BATCHES → ¬ StopV2 remote m) :
    ∀ fuel b, b + fuel = MAX_BATCHES →
      v2Loop remote fuel b (accRecords (fun j => (remote j).chunk) b) =
        .ok ⟨accRecords (fun j => (remote j).chunk) MAX_BATCHES, MAX_BATCHES, true,
          .v2Search⟩ := by
  intro fuel
  induction fuel with
  | zero =>
    intro b hb
    have hbe : b = MAX_BATCHES := by omega
    subst hbe
    rfl
  | succ fuel ih =>
    intro b hb
    have hblt : b < MAX_BATCHES := by omega
    have hm := hns b hblt
    unfold StopV2 at hm
    rw [v2Loop_succ, hok b hblt, if_pos rfl, if_neg hm]
    exact ih (b + 1) (by omega)

theorem v2Loop_ok_inv (remote : Nat → PagedResp) :
    ∀ fuel b acc r, v2Loop remote fuel b acc = .ok r →
      r.batches ≤ b + fuel ∧ r.strategy = .v2Search := by
  intro fuel
  induction fuel with
  | zero =>
    intro b acc r h
    simp only [v2Loop, Except.ok.injEq] at h
    subst h
    exact ⟨Nat.le_refl _, rfl⟩
  | succ fuel ih =>
    intro b acc r h
    rw [v2Loop_succ] at h
    split at h
    · split at h
      · injection h with h
        subst h
        have hle : b + 1 ≤ b + (fuel + 1) := by omega
        exact ⟨hle, rfl⟩
      · obtain ⟨h1, h2⟩ := ih (b + 1) _ r h
        exact ⟨by omega, h2⟩
    · exact absurd h (by simp)

/-! ## Helper lemmas: visited tokens and truncation -/

theorem mem_visitedToks (remote : Nat → ScrollResp) (x : String) :
    ∀ N, x ∈ visitedToks remote N ↔
      ∃ i, i < N ∧ ((remote i).nextToken).getD "" = x := by
  intro N
  induction N with
  | zero => simp [visitedToks]
  | succ n ih =>
    simp only [visitedToks, List.concat_eq_append, List.mem_append,
      List.mem_singleton, ih]
    constructor
    · rintro (⟨i, hi, hx⟩ | hx)
      · exact ⟨i, by omega, hx⟩
      · exact ⟨n, by omega, hx.symm⟩
    · rintro ⟨i, hi, hx⟩
      by_cases hin : i = n
      · subst hin
        exact Or.inr hx.symm
      · exact Or.inl ⟨i, by omega, hx⟩

theorem tokFalsy_eq_false {o : Option String} (h : tokFalsy o = false) :
    ∃ s, o = some s ∧ s ≠ "" := by
  cases o with
  | none => simp [tokFalsy] at h
  | some s =>
    refine ⟨s, rfl, ?_⟩
    simpa [tokFalsy] using h

theorem not_stopScroll {remote : Nat → ScrollResp} {i : Nat} (h : ¬ StopScroll remote i) :
    (remote i).chunk ≠ [] ∧ tokFalsy (remote i).nextToken = false ∧
      (visitedToks remote i).contains (((remote i).nextToken).getD "") = false := by
  unfold StopScroll at h
  push_neg at h
  exact ⟨h.1, by simpa using h.2.1, by simpa using h.2.2⟩

/-- Given that no earlier call stopped, the truncation flag computed at
the stopping call is set exactly when its next token already appeared as
the next token of an earlier call. -/
theorem scroll_truncated_iff (remote : Nat → ScrollResp) (N : Nat)
    (hmin : ∀ m, m < N → ¬ StopScroll remote m) :
    (visitedToks remote N).contains (((remote N).nextToken).getD "") = true ↔
      ∃ i, i < N ∧ (remote i).nextToken = (remote N).nextToken := by
  rw [List.elem_iff, mem_visitedToks]
  constructor
  · rintro ⟨i, hi, hxi⟩
    obtain ⟨s, hs, hne⟩ := tokFalsy_eq_false (not_stopScroll (hmin i hi)).2.1
    refine ⟨i, hi, ?_⟩
    cases hN : (remote N).nextToken with
    | none =>
      rw [hs, hN] at hxi
      simp only [Option.getD_some, Option.getD_none] at hxi
      exact absurd hxi hne
    | some u =>
      rw [hs, hN] at hxi
      simp only [Option.getD_some] at hxi
      rw [hs, hxi]
  · rintro ⟨i, hi, hieq⟩
    obtain ⟨s, hs, hne⟩ := tokFalsy_eq_false (not_stopScroll (hmin i hi)).2.1
    exact ⟨i, hi, by rw [hs, ← hieq, hs]⟩

/-! ## Helper lemmas: the rate-limit store -/

theorem storeGet_storeSet_self (s : Store) (key : String) (e : RateLimitEntry) :
    storeGet (storeSet s key e) key = some e := by
  induction s with
  | nil => simp [storeSet, storeGet]
  | cons kv rest ih =>
    obtain ⟨k, e0⟩ := kv
    by_cases h : k = key
    · simp [storeSet, h, storeGet]
    · simp [storeSet, h, storeGet, ih]

theorem storeGet_mem {s : Store} {key : String} {e : RateLimitEntry}
    (h : storeGet s key = some e) : (key, e) ∈ s := by
  induction s with
  | nil => simp [storeGet] at h
  | cons kv rest ih =>
    obtain ⟨k, e0⟩ := kv
    by_cases hk : k = key
    · subst hk
      simp [storeGet] at h
      simp [h]
    · simp [storeGet, hk] at h
      exact List.mem_cons_of_mem _ (ih h)

theorem storeGet_storeSweep {s : Store} {key : String} {e : RateLimitEntry} {now : Int}
    (h : storeGet s key = some e) (hlive : now < e.resetAt) :
    storeGet (storeSweep s now) key = some e := by
  induction s with
  | nil => simp [storeGet] at h
  | cons kv rest ih =>
    obtain ⟨k, e0⟩ := kv
    by_cases hk : k = key
    · subst hk
      simp [storeGet] at h
      subst h
      simp [storeSweep, List.filter_cons, hlive, storeGet]
    · simp [storeGet, hk] at h
      by_cases hp : now < e0.resetAt
      · simpa [storeSweep, List.filter_cons, hp, storeGet, hk] using ih h
      · simpa [storeSweep, List.filter_cons, hp] using ih h

/-- Every entry surviving a sweep is unexpired. -/
theorem storeGet_storeSweep_live {s : Store} {now : Int} {k : String} {e : RateLimitEntry}
    (h : storeGet (storeSweep s now) k = some e) : now < e.resetAt := by
  have hmem := storeGet_mem h
  have := List.of_mem_filter hmem
  simpa using this

/-! ## Helper lemmas: `checkRateLimit` branch equations -/

theorem checkRateLimit_fresh {s : Store} {key : String} (now : Int) (maxRequests : Nat)
    (windowMs : Int)
    (h : storeGet s key = none ∨ ∃ e, storeGet s key = some e ∧ e.resetAt ≤ now) :
    checkRateLimit now key maxRequests windowMs s =
      (⟨true, windowMs⟩, storeSet s key ⟨1, now + windowMs⟩) := by
  rcases h with h | ⟨e, h, he⟩
  · simp [checkRateLimit, h]
  · simp [checkRateLimit, h, he]

theorem checkRateLimit_deny {s : Store} {key : String} {e : RateLimitEntry}
    (now : Int) (maxRequests : Nat) (windowMs : Int)
    (h : storeGet s key = some e) (hlive : now < e.resetAt) (hmax : maxRequests ≤ e.count) :
    checkRateLimit now key maxRequests windowMs s = (⟨false, e.resetAt - now⟩, s) := by
  have hmx : max 0 (e.resetAt - now) = e.resetAt - now := max_eq_right (by omega)
  simp [checkRateLimit, h, not_le.mpr hlive, hmax, hmx]

theorem checkRateLimit_inc {s : Store} {key : String} {e : RateLimitEntry}
    (now : Int) (maxRequests : Nat) (windowMs : Int)
    (h : storeGet s key = some e) (hlive : now < e.resetAt) (hcnt : e.count < maxRequests) :
    checkRateLimit now key maxRequests windowMs s =
      (⟨true, e.resetAt - now⟩,
        if 1000 < (storeSet s key ⟨e.count + 1, e.resetAt⟩).length then
          storeSweep (storeSet s key ⟨e.count + 1, e.resetAt⟩) now
        else storeSet s key ⟨e.count + 1, e.resetAt⟩) := by
  have hmx : max 0 (e.resetAt - now) = e.resetAt - now := max_eq_right (by omega)
  simp [checkRateLimit, h, not_le.mpr hlive, not_le.mpr hcnt, hmx]

theorem checkRateLimit_inc_get {s : Store} {key : String} {e : RateLimitEntry}
    (now : Int) (maxRequests : Nat) (windowMs : Int)
    (h : storeGet s key = some e) (hlive : now < e.resetAt) (hcnt : e.count < maxRequests) :
    storeGet (checkRateLimit now key maxRequests windowMs s).2 key =
      some ⟨e.count + 1, e.resetAt⟩ := by
  rw [checkRateLimit_inc now maxRequests windowMs h hlive hcnt]
  by_cases hbig : 1000 < (storeSet s key ⟨e.count + 1, e.resetAt⟩).length
  · simpa [hbig] using
      storeGet_storeSweep (storeGet_storeSet_self s key ⟨e.count + 1, e.resetAt⟩) hlive
  · simpa [hbig] using storeGet_storeSet_self s key ⟨e.count + 1, e.resetAt⟩

/-- The allowed phase: starting from an entry `⟨c, reset⟩`, every further
check at a time inside the window is allowed while the counter has room,
and the counter advances by one per check. -/
theorem runChecks_phase (key : String) (maxRequests : Nat) (windowMs : Int) (reset : Int) :
    ∀ (ts : List Int) (s : Store) (c : Nat),
      storeGet s key = some ⟨c, reset⟩ →
      (∀ t ∈ ts, t < reset) →
      c + ts.length ≤ maxRequests →
      (∀ r ∈ (runChecks key maxRequests windowMs ts s).1, r.allowed = true) ∧
        storeGet (runChecks key maxRequests windowMs ts s).2 key =
          some ⟨c + ts.length, reset⟩ := by
  intro ts
  induction ts with
  | nil =>
    intro s c hget _ _
    simpa [runChecks] using hget
  | cons t ts ih =>
    intro s c hget htimes hcap
    have hlive : t < reset := htimes t (by simp)
    have hcnt : c < maxRequests := by
      simp only [List.length_cons] at hcap
      omega
    have hres := checkRateLimit_inc (e := ⟨c, reset⟩) t maxRequests windowMs hget hlive hcnt
    have hget2 := checkRateLimit_inc_get (e := ⟨c, reset⟩) t maxRequests windowMs hget hlive hcnt
    have hrest := ih (checkRateLimit t key maxRequests windowMs s).2 (c + 1) hget2
      (fun u hu => htimes u (by simp [hu])) (by simp only [List.length_cons] at hcap; omega)
    constructor
    · intro r hr
      simp only [runChecks, List.mem_cons] at hr
      rcases hr with hr | hr
      · rw [hr, hres]
      · exact hrest.1 r hr
    · simp only [runChecks]
      rw [show c + (t :: ts).length = c + 1 + ts.length by simp; omega]
      exact hrest.2

/-! ## C1 -/

/-- Claim C1: on a run of successful windowed-search responses, the fallback
strategy stops exactly at the first call whose batch is shorter than the
page size or after which the accumulated count reaches that response's
reported total (`N` is the 0-based index of that call, so `N + 1`
batches are issued), and the result is not truncated. -/
theorem c1_windowed_fallback_stop (remote : Nat → SearchResp) (N : Nat)
    (hok : ∀ m, m ≤ N → (remote m).ok = true)
    (hmin : ∀ m, m < N → ¬ StopFallback remote m)
    (hstop : StopFallback remote N)
    (hN : N < MAX_BATCHES) :
    exportV1SearchFallback remote =
      .ok ⟨accRecords (fun j => (remote j).chunk) (N + 1), N + 1, false,
        .v1SearchFallback⟩ :=
  fallbackLoop_stop remote N hok hmin hstop MAX_BATCHES 0 (by omega) (by omega)

/-- Witness for C1: reported total 250 with page size 100 gives exactly
3 calls returning 100, 100 and 50 records, and `truncated = false`. -/
theorem c1_windowed_fallback_stop_witness :
    exportV1SearchFallback remote250 =
      .ok ⟨accRecords (fun j => (remote250 j).chunk) 3, 3, false, .v1SearchFallback⟩ ∧
    (accRecords (fun j => (remote250 j).chunk) 3).length = 250 ∧
    (remote250 0).chunk.length = 100 ∧ (remote250 1).chunk.length = 100 ∧
    (remote250 2).chunk.length = 50 ∧ (remote250 2).total = some 250 := by
  refine ⟨c1_windowed_fallback_stop remote250 2 (fun m _ => rfl) (by decide) (by decide)
    (by decide), by decide, by decide, by decide, by decide, by decide⟩

/-! ## C2 -/

/-- Claim C2: on a run of successful scroll responses, the scroll strategy
stops exactly at the first call whose batch is empty, whose next token
is falsy, or whose next token was already seen (`N` is the 0-based index
of that call, so no further call is issued after it), and the result is
truncated exactly when that call's next token equals the next token of
an earlier call. -/
theorem c2_scroll_stop (remote : Nat → ScrollResp) (N : Nat)
    (hok : ∀ m, m ≤ N → (remote m).ok = true)
    (hmin : ∀ m, m < N → ¬ StopScroll remote m)
    (hstop : StopScroll remote N)
    (hN : N < MAX_BATCHES) :
    exportV1Scroll remote =
      .ok ⟨accRecords (fun j => (remote j).chunk) (N + 1), N + 1,
        (visitedToks remote N).contains (((remote N).nextToken).getD ""), .v1Scroll⟩ ∧
    ((visitedToks remote N).contains (((remote N).nextToken).getD "") = true ↔
      ∃ i, i < N ∧ (remote i).nextToken = (remote N).nextToken) :=
  ⟨scrollLoop_stop remote N hok hmin hstop MAX_BATCHES 0 (by omega) (by omega),
    scroll_truncated_iff remote N hmin⟩

/-- Witness for C2: a token repeating on the very next call stops the
scroll after 2 batches with `truncated = true`. -/
theorem c2_scroll_stop_witness :
    exportV1Scroll remoteRepeat = .ok ⟨[0, 1], 2, true, .v1Scroll⟩ ∧
    (remoteRepeat 1).nextToken = (remoteRepeat 0).nextToken := by
  have h := c2_scroll_stop remoteRepeat 1 (fun m _ => rfl) (by decide) (by decide)
    (by decide)
  constructor
  · rw [h.1]
    rfl
  · rfl

/-! ## C3 -/

/-- Claim C3: each of the three strategies reports at most `MAX_BATCHES`
(200) issued batches, and on a remote where no stop condition occurs in
the first 200 successful calls, each strategy returns exactly 200
batches with `truncated = true` instead of issuing a 201st call. -/
theorem c3_batch_cap (sremote : Nat → ScrollResp) (fremote : Nat → SearchResp)
    (schema : Option String) (sresp : SchemasResp) (premote : Nat → PagedResp) :
    (∀ r, exportV1Scroll sremote = .ok r → r.batches ≤ MAX_BATCHES) ∧
    (∀ r, exportV1SearchFallback fremote = .ok r → r.batches ≤ MAX_BATCHES) ∧
    (∀ r, exportV2Search schema sresp premote = .ok r → r.batches ≤ MAX_BATCHES) ∧
    ((∀ m, m < MAX_BATCHES → (sremote m).ok = true ∧ ¬ StopScroll sremote m) →
      exportV1Scroll sremote =
        .ok ⟨accRecords (fun j => (sremote j).chunk) MAX_BATCHES, MAX_BATCHES, true,
          .v1Scroll⟩) ∧
    ((∀ m, m < MAX_BATCHES → (fremote m).ok = true ∧ ¬ StopFallback fremote m) →
      exportV1SearchFallback fremote =
        .ok ⟨accRecords (fun j => (fremote j).chunk) MAX_BATCHES, MAX_BATCHES, true,
          .v1SearchFallback⟩) ∧
    ((∃ s, resolveV2Schema schema sresp = some s) →
      (∀ m, m < MAX_BATCHES → (premote m).ok = true ∧ ¬ StopV2 premote m) →
      exportV2Search schema sresp premote =
        .ok ⟨accRecords (fun j => (premote j).chunk) MAX_BATCHES, MAX_BATCHES, true,
          .v2Search⟩) := by
  refine ⟨?_, ?_, ?_, ?_, ?_, ?_⟩
  · intro r h
    have := (scrollLoop_ok_inv sremote MAX_BATCHES 0 [] [] r h).1
    simpa using this
  · intro r h
    have := (fallbackLoop_ok_inv fremote MAX_BATCHES 0 [] r h).1
    simpa using this
  · intro r h
    unfold exportV2Search at h
    cases hres : resolveV2Schema schema sresp with
    | none =>
      rw [hres] at h
      exact absurd h (by simp)
    | some s =>
      rw [hres] at h
      have := (v2Loop_ok_inv premote MAX_BATCHES 0 [] r h).1
      simpa using this
  · intro hall
    exact scrollLoop_cap sremote (fun m hm => (hall m hm).1) (fun m hm => (hall m hm).2)
      MAX_BATCHES 0 (by omega)
  · intro hall
    exact fallbackLoop_cap fremote (fun m hm => (hall m hm).1) (fun m hm => (hall m hm).2)
      MAX_BATCHES 0 (by omega)
  · rintro ⟨s, hs⟩ hall
    unfold exportV2Search
    rw [hs]
    exact v2Loop_cap premote (fun m hm => (hall m hm).1) (fun m hm => (hall m hm).2)
      MAX_BATCHES 0 (by omega)

/-- Witness for C3: remotes that never stop make every strategy return
exactly 200 batches with `truncated = true`. -/
theorem c3_batch_cap_witness :
    exportV1Scroll remoteEndless =
      .ok ⟨accRecords (fun j => (remoteEndless j).chunk) MAX_BATCHES, MAX_BATCHES, true,
        .v1Scroll⟩ ∧
    exportV1SearchFallback remoteFull =
      .ok ⟨accRecords (fun j => (remoteFull j).chunk) MAX_BATCHES, MAX_BATCHES, true,
        .v1SearchFallback⟩ ∧
    exportV2Search (some "sch") ⟨true, []⟩ remoteFullPaged =
      .ok ⟨accRecords (fun j => (remoteFullPaged j).chunk) MAX_BATCHES, MAX_BATCHES, true,
        .v2Search⟩ := by
  refine ⟨(c3_batch_cap remoteEndless remoteFull (some "sch") ⟨true, []⟩
      remoteFullPaged).2.2.2.1 ?_,
    (c3_batch_cap remoteEndless remoteFull (some "sch") ⟨true, []⟩
      remoteFullPaged).2.2.2.2.1 ?_,
    (c3_batch_cap remoteEndless remoteFull (some "sch") ⟨true, []⟩
      remoteFullPaged).2.2.2.2.2 ⟨"sch", rfl⟩ ?_⟩
  · decide
  · decide
  · decide

/-! ## C4 -/

/-- Claim C4: the V1 export runs the windowed-search fallback exactly when the
scroll strategy ended in an error (which only arises from a non-success
remote response), returning the fallback's result, whose strategy tag is
`v1-search-fallback` whenever it succeeds; when the scroll strategy
terminates normally its result is returned unchanged (tagged
`v1-scroll`), independently of the fallback remote, even when it holds
zero records. -/
theorem c4_v1_fallback_orchestration (sremote : Nat → ScrollResp)
    (fremote : Nat → SearchResp) :
    (∀ e, exportV1Scroll sremote = .error e →
      exportV1 sremote fremote = exportV1SearchFallback fremote ∧
      (∃ m, (sremote m).ok = false ∧ e.status = (sremote m).status) ∧
      (∀ r, exportV1SearchFallback fremote = .ok r → r.strategy = .v1SearchFallback)) ∧
    (∀ r, exportV1Scroll sremote = .ok r →
      exportV1 sremote fremote = .ok r ∧ r.strategy = .v1Scroll ∧
      (∀ fremote2, exportV1 sremote fremote2 = .ok r)) := by
  constructor
  · intro e he
    refine ⟨?_, scrollLoop_error sremote MAX_BATCHES 0 [] [] e he, ?_⟩
    · unfold exportV1
      rw [he]
    · intro r hr
      exact (fallbackLoop_ok_inv fremote MAX_BATCHES 0 [] r hr).2
  · intro r hr
    refine ⟨?_, (scrollLoop_ok_inv sremote MAX_BATCHES 0 [] [] r hr).2, ?_⟩
    · unfold exportV1
      rw [hr]
    · intro fremote2
      unfold exportV1
      rw [hr]

/-- Witness for C4: a failing first scroll call (HTTP 500) makes the
export return the fallback's result tagged `v1-search-fallback`, while a
scroll that terminates normally with zero records is returned directly
with no fallback. -/
theorem c4_v1_fallback_orchestration_witness :
    exportV1 remoteScrollFail remoteOneShort =
      .ok ⟨[1, 2, 3], 1, false, .v1SearchFallback⟩ ∧
    exportV1 remoteScrollEmpty remoteOneShort = .ok ⟨[], 1, false, .v1Scroll⟩ := by
  constructor
  · have h := (c4_v1_fallback_orchestration remoteScrollFail remoteOneShort).1
      ⟨"Falha ao exportar registros do V1 via scroll. boom", 500⟩ (by rfl)
    rw [h.1]
    rfl
  · exact ((c4_v1_fallback_orchestration remoteScrollEmpty remoteOneShort).2
      ⟨[], 1, false, .v1Scroll⟩ (by rfl)).1

/-! ## C6 -/

theorem firstTruthyName_of_all_none {l : List (Option String)}
    (h : ∀ o ∈ l, o = none) : firstTruthyName l = none := by
  induction l with
  | nil => rfl
  | cons o rest ih =>
    have ho := h o (by simp)
    subst ho
    exact ih (fun o2 ho2 => h o2 (by simp [ho2]))

/-- Claim C6: a V2 export whose request carries no schema and whose schema
listing fails, is empty, or has no named entries, fails with the
no-schema error and status 400, and its outcome does not depend on the
search remote at all (no search call is issued). -/
theorem c6_v2_no_schema (sresp : SchemasResp) (premote premote2 : Nat → PagedResp)
    (h : sresp.ok = false ∨ sresp.schemas = [] ∨ ∀ o ∈ sresp.schemas, o = none) :
    exportV2Search none sresp premote =
      .error ⟨"Nenhum schema disponível para esta entidade no V2.", 400⟩ ∧
    exportV2Search none sresp premote = exportV2Search none sresp premote2 := by
  have hres : resolveV2Schema none sresp = none := by
    rcases h with h | h | h
    · simp [resolveV2Schema, h]
    · cases hok : sresp.ok
      · simp [resolveV2Schema, hok]
      · simp [resolveV2Schema, hok, h, firstTruthyName]
    · cases hok : sresp.ok
      · simp [resolveV2Schema, hok]
      · simp only [resolveV2Schema, if_true]
        rw [if_pos hok]
        exact firstTruthyName_of_all_none h
  constructor
  · unfold exportV2Search
    rw [hres]
  · unfold exportV2Search
    rw [hres]

/-- Witness for C6: a successful schema listing whose entries are all
unnamed yields the 400 no-schema error, with any search remote. -/
theorem c6_v2_no_schema_witness :
    exportV2Search none ⟨true, [none, none]⟩ remoteFullPaged =
      .error ⟨"Nenhum schema disponível para esta entidade no V2.", 400⟩ ∧
    exportV2Search none ⟨true, [none, none]⟩ remoteFullPaged =
      exportV2Search none ⟨true, [none, none]⟩ (fun _ => ⟨true, 200, []⟩) :=
  c6_v2_no_schema ⟨true, [none, none]⟩ remoteFullPaged (fun _ => ⟨true, 200, []⟩)
    (Or.inr (Or.inr (by decide)))

/-! ## C7 -/

theorem singlePageQuery_ok {version : Version} {schema : Option String}
    {sresp : SchemasResp} {remote : Option String → PageResp} {page pageSize : Nat}
    {pr : PageOk}
    (h : singlePageQuery version schema sresp remote page pageSize = .ok pr) :
    ∃ q : FetchResult, q.ok = true ∧ pr.records = q.records ∧
      pr.pagination = buildPagination page pageSize q.total q.records.length := by
  unfold singlePageQuery at h
  cases hc : (chooseQuery version schema sresp remote).1 with
  | error e =>
    rw [hc] at h
    exact absurd h (by simp)
  | ok q =>
    rw [hc] at h
    dsimp only at h
    by_cases hq : q.ok = true
    · rw [if_pos hq] at h
      injection h with h
      subst h
      exact ⟨q, hq, rfl, rfl⟩
    · rw [if_neg hq] at h
      exact absurd h (by simp)

/-- Claim C7 counterexample: a single-page query whose response reports the
known total 0 returns `totalPages = 1`, not `ceil(0 / 25) = 0` as the
claim states. -/
theorem c7_counterexample :
    singlePageQuery .v1 none ⟨true, []⟩ remoteTotal0 1 25 =
      .ok ⟨[7], ⟨1, 25, some 0, some 1, false, false⟩, none⟩ ∧
    ceilDiv 0 25 = 0 ∧
    (some 1 : Option Nat) ≠ some (ceilDiv 0 25) :=
  ⟨rfl, rfl, by decide⟩

/-- Claim C7 (amended): for every single-page query result, when the total is
known the pagination has `totalPages = max 1 (ceil(total / pageSize))`
(so a reported total of 0 still yields one page), `hasNext` holds
exactly when `page < totalPages`, and when the total is unknown
`totalPages` stays unknown and `hasNext` holds exactly when the returned
batch size equals the page size; `hasPrevious` holds exactly when
`page > 1`; in particular total 95 with page size 25 gives
`totalPages = 4` and `hasNext` exactly for pages below 4. -/
theorem c7_pagination (version : Version) (schema : Option String) (sresp : SchemasResp)
    (remote : Option String → PageResp) (page pageSize : Nat) (pr : PageOk)
    (hok : singlePageQuery version schema sresp remote page pageSize = .ok pr) :
    pr.pagination.page = page ∧
    pr.pagination.pageSize = pageSize ∧
    (∀ t, pr.pagination.total = some t →
      pr.pagination.totalPages = some (max 1 (ceilDiv t pageSize)) ∧
      (pr.pagination.hasNext = true ↔ page < max 1 (ceilDiv t pageSize))) ∧
    (pr.pagination.total = none →
      pr.pagination.totalPages = none ∧
      (pr.pagination.hasNext = true ↔ pr.records.length = pageSize)) ∧
    (pr.pagination.hasPrevious = true ↔ 1 < page) ∧
    (pr.pagination.total = some 95 → pageSize = 25 →
      pr.pagination.totalPages = some 4 ∧ (pr.pagination.hasNext = true ↔ page < 4)) := by
  obtain ⟨q, hq, hrec, hpag⟩ := singlePageQuery_ok hok
  have htot : pr.pagination.total = q.total := by
    rw [hpag]
    rfl
  have htp : pr.pagination.totalPages =
      q.total.map (fun t => max 1 (ceilDiv t pageSize)) := by
    rw [hpag]
    rfl
  have hpage : pr.pagination.page = page := by
    rw [hpag]
    rfl
  have hps : pr.pagination.pageSize = pageSize := by
    rw [hpag]
    rfl
  have hprev : pr.pagination.hasPrevious = decide (1 < page) := by
    rw [hpag]
    rfl
  have hnext : pr.pagination.hasNext =
      match q.total.map (fun t => max 1 (ceilDiv t pageSize)) with
      | some tp => decide (page < tp)
      | none => decide (q.records.length = pageSize) := by
    rw [hpag]
    rfl
  refine ⟨hpage, hps, ?_, ?_, ?_, ?_⟩
  · intro t ht
    rw [htot] at ht
    constructor
    · rw [htp, ht]
      rfl
    · rw [hnext, ht]
      simp
  · intro hnone
    rw [htot] at hnone
    constructor
    · rw [htp, hnone]
      rfl
    · rw [hnext, hnone, hrec]
      simp
  · rw [hprev]
    simp
  · intro h95 h25
    subst h25
    rw [htot] at h95
    have h4 : max 1 (ceilDiv 95 25) = 4 := by decide
    constructor
    · rw [htp, h95]
      simp [h4]
    · rw [hnext, h95]
      simp [h4]

/-- Witness for C7 (amended): total 95 with page size 25 on page 2 gives
`totalPages = 4`, `hasNext = true`. -/
theorem c7_pagination_witness :
    singlePageQuery .v1 none ⟨true, []⟩ remote95 2 25 =
      .ok ⟨List.replicate 25 0, ⟨2, 25, some 95, some 4, true, true⟩, none⟩ ∧
    (⟨2, 25, some 95, some 4, true, true⟩ : Pagination).totalPages =
      some (max 1 (ceilDiv 95 25)) ∧
    ((⟨2, 25, some 95, some 4, true, true⟩ : Pagination).hasNext = true ↔ 2 < 4) := by
  have hq : singlePageQuery .v1 none ⟨true, []⟩ remote95 2 25 =
      .ok ⟨List.replicate 25 0, ⟨2, 25, some 95, some 4, true, true⟩, none⟩ := rfl
  have h := (c7_pagination .v1 none ⟨true, []⟩ remote95 2 25 _ hq).2.2.1 95 rfl
  exact ⟨hq, h.1, h.2⟩

/-! ## C8 -/

/-- Claim C8 counterexample: a V1 single-page query given the caller-supplied
schema `"foo"` issues its one call with no schema parameter, and a V2
query with that schema issues two search calls, not one. -/
theorem c8_counterexample :
    (chooseQuery .v1 (some "foo") ⟨true, []⟩ remotePlain).2 = [none] ∧
    (none : Option String) ≠ some "foo" ∧
    (chooseQuery .v2 (some "foo") ⟨true, []⟩ remotePlain).2 = [none, some "foo"] ∧
    (chooseQuery .v2 (some "foo") ⟨true, []⟩ remotePlain).2.length ≠ 1 :=
  ⟨rfl, by decide, rfl, by decide⟩

/-- Claim C8 (amended): the initial windowed-search call of the documents
route always carries no schema, even when the caller supplied one.  For
V1 exactly one call is issued before any empty-batch schema retry (and
exactly one in total when that call fails or returns records); for V2 a
second call is then issued carrying the caller-supplied schema or, when
none was supplied, the first truthy name of the remote schema list, and
the result of that second call is the one used. -/
theorem c8_single_page_calls (schema : Option String) (sresp : SchemasResp)
    (remote : Option String → PageResp) :
    ((chooseQuery .v1 schema sresp remote).2.head? = some none) ∧
    ((chooseQuery .v2 schema sresp remote).2.head? = some none) ∧
    ((fetchRecordsBySchema remote none).ok = true →
      (fetchRecordsBySchema remote none).records ≠ [] →
      chooseQuery .v1 schema sresp remote =
        (.ok (fetchRecordsBySchema remote none), [none])) ∧
    ((fetchRecordsBySchema remote none).ok = false →
      chooseQuery .v1 schema sresp remote =
        (.ok (fetchRecordsBySchema remote none), [none])) ∧
    (∀ s, schema = some s →
      chooseQuery .v2 schema sresp remote =
        (.ok (fetchRecordsBySchema remote (some s)), [none, some s])) ∧
    (schema = none → ∀ s, (fetchSchemas sresp).head? = some s →
      chooseQuery .v2 none sresp remote =
        (.ok (fetchRecordsBySchema remote (some s)), [none, some s])) := by
  refine ⟨?_, ?_, ?_, ?_, ?_, ?_⟩
  · unfold chooseQuery
    dsimp only
    by_cases hc : (fetchRecordsBySchema remote none).ok = true ∧
        (fetchRecordsBySchema remote none).records = []
    · rw [if_pos hc]
      rfl
    · rw [if_neg hc]
      rfl
  · unfold chooseQuery
    dsimp only
    cases schema with
    | some s => rfl
    | none =>
      cases hh : (fetchSchemas sresp).head? with
      | none => simp [hh]
      | some s => simp [hh]
  · intro hok hne
    unfold chooseQuery
    dsimp only
    rw [if_neg (fun hc => hne hc.2)]
  · intro hnok
    unfold chooseQuery
    dsimp only
    rw [if_neg (fun hc => by rw [hc.1] at hnok; cases hnok)]
  · intro s hs
    subst hs
    rfl
  · intro hs s hh
    subst hs
    unfold chooseQuery
    dsimp only
    simp [hh]

/-- Witness for C8 (amended): a V1 query with no supplied schema issues
exactly the schema-less call; a V2 query with schema `"s"` issues the
schema-less call and then the call carrying `"s"`. -/
theorem c8_single_page_calls_witness :
    chooseQuery .v1 none ⟨true, []⟩ remotePlain =
      (.ok (fetchRecordsBySchema remotePlain none), [none]) ∧
    chooseQuery .v2 (some "s") ⟨true, []⟩ remotePlain =
      (.ok (fetchRecordsBySchema remotePlain (some "s")), [none, some "s"]) := by
  refine ⟨(c8_single_page_calls none ⟨true, []⟩ remotePlain).2.2.1 (by decide)
    (by decide), ?_⟩
  exact (c8_single_page_calls (some "s") ⟨true, []⟩ remotePlain).2.2.2.2.1 "s" rfl

/-! ## C5 -/

/-- Claim C5: `checkRateLimit` creates a fresh `count = 1` entry and returns
`allowed = true, retryAfterMs = windowMs` when no live entry exists;
denies with the strictly positive remaining window time and no mutation
when the live count has reached `maxRequests`; otherwise increments the
count and allows.  Consequently, starting with no entry, the
`(maxRequests + 1)`-th check inside one window is denied with a positive
`retryAfterMs`, and a check at or after the window end is allowed. -/
theorem c5_rate_limit (key : String) (maxRequests : Nat) (windowMs now : Int) (s : Store) :
    ((storeGet s key = none ∨ ∃ e, storeGet s key = some e ∧ e.resetAt ≤ now) →
      checkRateLimit now key maxRequests windowMs s =
        (⟨true, windowMs⟩, storeSet s key ⟨1, now + windowMs⟩)) ∧
    (∀ e : RateLimitEntry, storeGet s key = some e → now < e.resetAt →
      maxRequests ≤ e.count →
      checkRateLimit now key maxRequests windowMs s = (⟨false, e.resetAt - now⟩, s) ∧
        0 < e.resetAt - now) ∧
    (∀ e : RateLimitEntry, storeGet s key = some e → now < e.resetAt →
      e.count < maxRequests →
      (checkRateLimit now key maxRequests windowMs s).1 = ⟨true, e.resetAt - now⟩ ∧
        storeGet (checkRateLimit now key maxRequests windowMs s).2 key =
          some ⟨e.count + 1, e.resetAt⟩) ∧
    (∀ (t0 : Int) (ts : List Int) (tlast : Int),
      storeGet s key = none → 1 ≤ maxRequests → ts.length = maxRequests - 1 →
      (∀ t ∈ ts, t < t0 + windowMs) → tlast < t0 + windowMs →
      (∀ r ∈ (runChecks key maxRequests windowMs (t0 :: ts) s).1, r.allowed = true) ∧
        (checkRateLimit tlast key maxRequests windowMs
            (runChecks key maxRequests windowMs (t0 :: ts) s).2).1 =
          ⟨false, t0 + windowMs - tlast⟩ ∧
        0 < t0 + windowMs - tlast) ∧
    (∀ (e : RateLimitEntry) (t : Int), storeGet s key = some e → e.resetAt ≤ t →
      (checkRateLimit t key maxRequests windowMs s).1.allowed = true) := by
  refine ⟨fun h => checkRateLimit_fresh now maxRequests windowMs h, ?_, ?_, ?_, ?_⟩
  · intro e hget hlive hmax
    exact ⟨checkRateLimit_deny now maxRequests windowMs hget hlive hmax, by omega⟩
  · intro e hget hlive hcnt
    refine ⟨?_, checkRateLimit_inc_get now maxRequests windowMs hget hlive hcnt⟩
    rw [checkRateLimit_inc now maxRequests windowMs hget hlive hcnt]
  · intro t0 ts tlast hnone hmax hlen htimes hlast
    have h1 := checkRateLimit_fresh (s := s) t0 maxRequests windowMs (Or.inl hnone)
    have hget1 : storeGet (checkRateLimit t0 key maxRequests windowMs s).2 key =
        some ⟨1, t0 + windowMs⟩ := by
      rw [h1]
      exact storeGet_storeSet_self s key ⟨1, t0 + windowMs⟩
    have hphase := runChecks_phase key maxRequests windowMs (t0 + windowMs) ts
      (checkRateLimit t0 key maxRequests windowMs s).2 1 hget1 htimes (by omega)
    have hfinal : storeGet (runChecks key maxRequests windowMs (t0 :: ts) s).2 key =
        some ⟨maxRequests, t0 + windowMs⟩ := by
      have h2 := hphase.2
      rw [show (1 : Nat) + ts.length = maxRequests by omega] at h2
      simpa [runChecks] using h2
    have hdeny := checkRateLimit_deny (e := ⟨maxRequests, t0 + windowMs⟩)
      tlast maxRequests windowMs hfinal hlast (le_refl _)
    refine ⟨?_, ?_, by omega⟩
    · intro r hr
      simp only [runChecks, List.mem_cons] at hr
      rcases hr with hr | hr
      · rw [hr, h1]
      · exact hphase.1 r hr
    · rw [hdeny]
  · intro e t hget hexp
    rw [checkRateLimit_fresh t maxRequests windowMs (Or.inr ⟨e, hget, hexp⟩)]

/-- Witness for C5: with `maxRequests = 2`, `windowMs = 10`, checks at
times 0 and 1 are allowed, the third check at time 2 is denied with
`retryAfterMs = 8 > 0`, and a check at time 12 on a maxed entry is
allowed again. -/
theorem c5_rate_limit_witness :
    ((∀ r ∈ (runChecks "k" 2 10 [0, 1] []).1, r.allowed = true) ∧
      (checkRateLimit 2 "k" 2 10 (runChecks "k" 2 10 [0, 1] []).2).1 = ⟨false, 8⟩ ∧
      (0 : Int) < 8) ∧
    (checkRateLimit 12 "k" 2 10 [("k", ⟨2, 10⟩)]).1.allowed = true := by
  constructor
  · have h := (c5_rate_limit "k" 2 10 0 []).2.2.2.1 0 [1] 2 rfl (by decide) (by decide)
      (by decide) (by decide)
    simpa using h
  · exact (c5_rate_limit "k" 2 10 12 [("k", ⟨2, 10⟩)]).2.2.2.2 ⟨2, 10⟩ 12 rfl (by decide)

/-! ## C9 -/

/-- Claim C9 counterexample: a call on a table of 1001 keys, all of them
expired, that takes the fresh-entry branch; the claim says all expired
entries are deleted before the call returns, but the expired entry
`"e0"` is still present afterwards. -/
theorem c9_counterexample :
    1000 < bigStore.length ∧
    storeGet bigStore "e0" = some ⟨1, 0⟩ ∧
    storeGet bigStore "fresh" = none ∧
    (⟨1, 0⟩ : RateLimitEntry).resetAt ≤ 5 ∧
    storeGet (checkRateLimit 5 "fresh" 3 10 bigStore).2 "e0" = some ⟨1, 0⟩ := by
  refine ⟨by decide, by decide, by decide, by decide, ?_⟩
  decide

/-- Claim C9 (amended): only a call taking the increment branch sweeps.  The
fresh-entry branch only inserts the fresh entry and the denial branch
leaves the table unchanged, in both cases keeping every expired entry;
a call taking the increment branch on a table that then holds more than
1000 keys deletes exactly the expired entries, so every surviving entry
is live. -/
theorem c9_sweep_only_on_increment (now : Int) (key : String) (maxRequests : Nat)
    (windowMs : Int) (s : Store) :
    ((storeGet s key = none ∨ ∃ e, storeGet s key = some e ∧ e.resetAt ≤ now) →
      (checkRateLimit now key maxRequests windowMs s).2 =
        storeSet s key ⟨1, now + windowMs⟩) ∧
    (∀ e : RateLimitEntry, storeGet s key = some e → now < e.resetAt →
      maxRequests ≤ e.count →
      (checkRateLimit now key maxRequests windowMs s).2 = s) ∧
    (∀ e : RateLimitEntry, storeGet s key = some e → now < e.resetAt →
      e.count < maxRequests →
      1000 < (storeSet s key ⟨e.count + 1, e.resetAt⟩).length →
      (checkRateLimit now key maxRequests windowMs s).2 =
        storeSweep (storeSet s key ⟨e.count + 1, e.resetAt⟩) now ∧
        ∀ (k : String) (e2 : RateLimitEntry),
          storeGet (checkRateLimit now key maxRequests windowMs s).2 k = some e2 →
          now < e2.resetAt) ∧
    (∀ e : RateLimitEntry, storeGet s key = some e → now < e.resetAt →
      e.count < maxRequests →
      (storeSet s key ⟨e.count + 1, e.resetAt⟩).length ≤ 1000 →
      (checkRateLimit now key maxRequests windowMs s).2 =
        storeSet s key ⟨e.count + 1, e.resetAt⟩) := by
  refine ⟨?_, ?_, ?_, ?_⟩
  · intro h
    rw [checkRateLimit_fresh now maxRequests windowMs h]
  · intro e hget hlive hmax
    rw [checkRateLimit_deny now maxRequests windowMs hget hlive hmax]
  · intro e hget hlive hcnt hbig
    have heq : (checkRateLimit now key maxRequests windowMs s).2 =
        storeSweep (storeSet s key ⟨e.count + 1, e.resetAt⟩) now := by
      rw [checkRateLimit_inc now maxRequests windowMs hget hlive hcnt]
      simp [hbig]
    refine ⟨heq, ?_⟩
    intro k e2 h2
    rw [heq] at h2
    exact storeGet_storeSweep_live h2
  · intro e hget hlive hcnt hsmall
    rw [checkRateLimit_inc now maxRequests windowMs hget hlive hcnt]
    simp [not_lt.mpr hsmall]

/-- Witness for the amended C9: a denial on a two-entry table with one
expired entry keeps the table as is, and an increment on a 1001-entry
table (1002 after counting the live key) sweeps the expired ones. -/
theorem c9_sweep_only_on_increment_witness :
    (checkRateLimit 5 "live" 1 10 [("live", ⟨1, 9⟩), ("old", ⟨1, 0⟩)]).2 =
      [("live", ⟨1, 9⟩), ("old", ⟨1, 0⟩)] ∧
    (checkRateLimit 5 "live" 9 10 bigStore2).2 =
      storeSweep (storeSet bigStore2 "live" ⟨2, 9⟩) 5 := by
  constructor
  · exact (c9_sweep_only_on_increment 5 "live" 1 10
      [("live", ⟨1, 9⟩), ("old", ⟨1, 0⟩)]).2.1 ⟨1, 9⟩ (by decide) (by decide) (by decide)
  · exact ((c9_sweep_only_on_increment 5 "live" 9 10 bigStore2).2.2.1 ⟨1, 9⟩ (by decide)
      (by decide) (by decide) (by decide)).1

/-! ## C10 -/

/-- Claim C10: an omitted page defaults to 1 and an omitted page size to 50;
a page that is not an integer in `1..10000`, or a page size that is not
an integer in `1..200` (fractional values included), is rejected with a
validation error; integer values in range are accepted unchanged. -/
theorem c10_sanitize_pagination (page pageSize : ℚ) :
    (sanitizePagination none none = .ok (1, 50)) ∧
    ((page.den ≠ 1 ∨ page < 1 ∨ 10000 < page) →
      ∀ ps : Option ℚ, sanitizePagination (some page) ps = .error "Página inválida.") ∧
    (page.den = 1 → 1 ≤ page → page ≤ 10000 →
      (pageSize.den ≠ 1 ∨ pageSize < 1 ∨ 200 < pageSize) →
      sanitizePagination (some page) (some pageSize) =
        .error "Tamanho de página inválido.") ∧
    (page.den = 1 → 1 ≤ page → page ≤ 10000 →
      pageSize.den = 1 → 1 ≤ pageSize → pageSize ≤ 200 →
      sanitizePagination (some page) (some pageSize) =
        .ok (page.num.toNat, pageSize.num.toNat)) ∧
    (pageSize.den = 1 → 1 ≤ pageSize → pageSize ≤ 200 →
      sanitizePagination none (some pageSize) = .ok (1, pageSize.num.toNat)) ∧
    (page.den = 1 → 1 ≤ page → page ≤ 10000 →
      sanitizePagination (some page) none = .ok (page.num.toNat, 50)) := by
  refine ⟨by rfl, ?_, ?_, ?_, ?_, ?_⟩
  · intro hbad ps
    simp [sanitizePagination, hbad]
  · intro hden hlo hhi hbad
    have hgood : ¬(page.den ≠ 1 ∨ page < 1 ∨ 10000 < page) := by
      push_neg
      exact ⟨hden, hlo, hhi⟩
    simp only [sanitizePagination, Option.getD_some]
    rw [if_neg hgood, if_pos hbad]
  · intro hden hlo hhi hden2 hlo2 hhi2
    have hgood : ¬(page.den ≠ 1 ∨ page < 1 ∨ 10000 < page) := by
      push_neg
      exact ⟨hden, hlo, hhi⟩
    have hgood2 : ¬(pageSize.den ≠ 1 ∨ pageSize < 1 ∨ 200 < pageSize) := by
      push_neg
      exact ⟨hden2, hlo2, hhi2⟩
    simp only [sanitizePagination, Option.getD_some]
    rw [if_neg hgood, if_neg hgood2]
  · intro hden2 hlo2 hhi2
    have hgood : ¬((1 : ℚ).den ≠ 1 ∨ (1 : ℚ) < 1 ∨ 10000 < (1 : ℚ)) := by norm_num
    have hgood2 : ¬(pageSize.den ≠ 1 ∨ pageSize < 1 ∨ 200 < pageSize) := by
      push_neg
      exact ⟨hden2, hlo2, hhi2⟩
    simp only [sanitizePagination, Option.getD_none, Option.getD_some]
    rw [if_neg hgood, if_neg hgood2]
    norm_num
  · intro hden hlo hhi
    have hgood : ¬(page.den ≠ 1 ∨ page < 1 ∨ 10000 < page) := by
      push_neg
      exact ⟨hden, hlo, hhi⟩
    have hgood2 : ¬((50 : ℚ).den ≠ 1 ∨ (50 : ℚ) < 1 ∨ 200 < (50 : ℚ)) := by norm_num
    simp only [sanitizePagination, Option.getD_none, Option.getD_some]
    rw [if_neg hgood, if_neg hgood2]
    norm_num
    decide

/-- Witness for C10: the defaults, a fractional page, an out-of-range
page size, and an accepted pair. -/
theorem c10_sanitize_pagination_witness :
    sanitizePagination none none = .ok (1, 50) ∧
    sanitizePagination (some ratHalf) none = .error "Página inválida." ∧
    sanitizePagination (some 2) (some 201) = .error "Tamanho de página inválido." ∧
    sanitizePagination (some 2) (some 100) = .ok (2, 100) := by
  refine ⟨(c10_sanitize_pagination 1 1).1, ?_, ?_, ?_⟩
  · exact (c10_sanitize_pagination ratHalf 1).2.1 (Or.inl (by decide)) none
  · exact (c10_sanitize_pagination 2 201).2.2.1 (by decide) (by decide) (by decide)
      (by decide)
  · have h := (c10_sanitize_pagination 2 100).2.2.2.1 (by decide) (by decide) (by decide)
      (by decide) (by decide) (by decide)
    simpa using h

end Vtex
